import Mathlib

/-!
# Verification of the Polymarket auto-claimer orchestration logic

Shallow embedding of `src/simple-claimer.ts`: the position filter
(`fetchRedeemablePositions`), the calldata builder
(`buildRedemptionCalldata`), the two execution paths
(`claimViaGnosisSafe`, `claimViaPolymarketProxy`), the per-cycle claim
executor (`claimPosition` / `run`), and the drift-compensated scheduler
loop in `main`.

Modelling conventions:
* JavaScript numbers that hold share sizes and prices are embedded as `ℚ`.
* Hex strings that denote 20-byte addresses / 32-byte hashes are embedded
  as `ℕ` (their numeric value); calldata is a byte list (`List ℕ`, each
  entry < 256).
* Network interaction is made explicit: the position fetch takes an
  `Except`-valued response (error = unreachable upstream or malformed
  body, mirroring the `try`/`catch` around `axios.get`), and the chain
  responses a cycle observes are packaged in a `ChainEnv` record; each
  claim function returns its `ClaimResult` together with the list of
  on-chain write calls (`Effect`) it submitted.
* `ethers.Interface.encodeFunctionData` is embedded by the standard ABI
  head/tail word layout for the two fixed signatures used by the source;
  the 4-byte keccak-derived selectors are opaque library constants and
  are embedded as fixed distinct byte lists.
-/

namespace SimpleClaimer

/-- A market position as returned by the data API
(interface `Position`, simple-claimer.ts lines 144-170).
Fields the orchestration logic never reads (pnl statistics, slugs,
icons, ...) are omitted; `title` and `outcome` are kept as the
display-only metadata that the logging reads. -/
structure Position where
  conditionId : Nat
  size : ℚ
  curPrice : ℚ
  redeemable : Bool
  outcomeIndex : Nat
  negativeRisk : Bool
  title : String
  outcome : String
  deriving DecidableEq, Repr

/-- The claimability predicate applied inside `fetchRedeemablePositions`
(lines 287-314): rejects non-redeemable positions, then empty sizes,
then any position whose current price is not exactly 1. -/
def claimFilter (pos : Position) : Bool :=
  if !pos.redeemable then false
  else if pos.size ≤ 0 then false
  else if pos.curPrice ≠ 1 then false
  else true

/-- `fetchRedeemablePositions` (lines 263-332): on a successful response
it filters the raw records with `claimFilter`; the surrounding
`try`/`catch` turns any fetch/parse failure into an empty list. -/
def fetchRedeemablePositions (resp : Except String (List Position)) : List Position :=
  match resp with
  | Except.error _ => []
  | Except.ok positions => positions.filter claimFilter

/-- Polygon mainnet USDC address (config.mainnet.usdcAddress). -/
def usdcAddress : Nat := 0x2791Bca1f2de4661ED88A30C99A7a9449Aa84174

/-- Polygon mainnet conditional-tokens-framework address
(config.mainnet.ctfAddress). -/
def ctfAddress : Nat := 0x4D97DCd97eC945f40cF65F87097ACe5EA0476045

/-- NEG_RISK_ADAPTER address used by both execution paths. -/
def negRiskAdapterAddress : Nat := 0xd91E80cF2E7be2e162c6513ceD06f1dD0dA35296

/-- Big-endian 32-byte encoding of one ABI word. -/
def wordBytes (w : Nat) : List Nat :=
  (List.range 32).map (fun i => w / 256 ^ (31 - i) % 256)

/-- ABI call encoding: the 4-byte selector followed by the 32-byte words. -/
def encodeCall (selector : List Nat) (words : List Nat) : List Nat :=
  selector ++ (words.map wordBytes).flatten

/-- Keccak-derived 4-byte selector of
`redeemPositions(bytes32,uint256[])` (neg-risk adapter ABI); the hash
itself is computed by the ethers library and is embedded as an opaque
constant. -/
def negRiskRedeemSelector : List Nat := [0x95, 0x33, 0x8a, 0x1d]

/-- Keccak-derived 4-byte selector of
`redeemPositions(address,bytes32,bytes32,uint256[])` (CTF ABI); opaque
library constant, as above. -/
def ctfRedeemSelector : List Nat := [0x01, 0xb7, 0x03, 0x7c]

/-- `ethers.parseUnits(size.toString(), 6)` followed by the uint256
bounds check the encoder applies: succeeds with `size · 10^6` exactly
when that value is a non-negative integer (more fractional digits than
6, or a negative size, make the library throw). -/
def parseUnits6 (size : ℚ) : Option Nat :=
  let scaled := size * 1000000
  if scaled.den = 1 ∧ 0 ≤ scaled.num then some scaled.num.toNat else none

/-- `buildRedemptionCalldata` (lines 334-366).

Negative-risk branch: `redeemPositions(bytes32,uint256[])` with the
amount vector `[size·10^6, 0]` for outcome 0 and `[0, size·10^6]`
otherwise; ABI layout is the static `bytes32` word, the tail offset
(0x40), the array length 2 and the two elements.

Standard branch: `redeemPositions(address,bytes32,bytes32,uint256[])`
with the USDC collateral address, the zero parent collection id
(`ethers.ZeroHash`), the condition id and the singleton index-set list
`[1 <<< outcomeIndex]`; layout is the four head words (the array head
being the tail offset 0x80) followed by length 1 and the element.

A `none` result models the `parseUnits`/encoder throw. -/
def buildRedemptionCalldata (conditionId : Nat) (outcomeIndex : Nat)
    (negativeRisk : Bool) (size : ℚ) : Option (List Nat) :=
  if negativeRisk then
    match parseUnits6 size with
    | none => none
    | some amt =>
      let amounts := if outcomeIndex = 0 then [amt, 0] else [0, amt]
      some (encodeCall negRiskRedeemSelector ([conditionId, 0x40, 2] ++ amounts))
  else
    let indexSet := 1 <<< outcomeIndex
    some (encodeCall ctfRedeemSelector
      [usdcAddress, 0, conditionId, 0x80, 1, indexSet])

/-- An on-chain write call submitted by a claim attempt. -/
inductive Effect where
  | safeExecute (target : Nat) (calldata : List Nat)
  | proxySubmit (target : Nat) (calldata : List Nat)
  deriving DecidableEq, Repr

/-- Outcome of one redemption attempt
(`{success, txHash?, error?}` in the source). -/
structure ClaimResult where
  success : Bool
  txHash : Option String
  error : Option String
  deriving DecidableEq, Repr

/-- Owner/threshold data the Safe SDK probe reports. -/
structure SafeInfo where
  owners : List String
  threshold : Nat
  deriving DecidableEq, Repr

/-- The fields `claimViaGnosisSafe` inspects on the object returned by
`safe.executeTransaction` (lines 399-401); each is absent or a string. -/
structure ExecResponse where
  hash : Option String
  transactionHash : Option String
  safeTxHash : Option String
  deriving DecidableEq, Repr

/-- Transaction receipt observed by the proxy-factory path. -/
structure ProxyReceipt where
  status : Nat
  blockNumber : Nat
  deriving DecidableEq, Repr

/-- The chain-side observations one claim attempt makes: the signer
address and its gas-token balance, which wallet mode `initialize`
resolved (`this.safe`), and the responses the external calls of the two
execution paths would return. -/
structure ChainEnv where
  signerAddress : String
  eoaBalance : Nat
  safe : Option SafeInfo
  execError : Option String
  execResponse : ExecResponse
  proxyError : Option String
  proxyTxHash : String
  proxyReceipt : Option ProxyReceipt
  deriving DecidableEq, Repr

/-- Wallet-type probe of `initialize` (lines 221-255): `Safe.init`
either throws (`Except.error`) or reports owners; a signer that is not
among the owners raises inside the same `try`, so both cases are caught
and leave `this.safe` unset (`none`), selecting the proxy-factory path. -/
def resolveSafe (probe : Except String SafeInfo) (signerAddress : String) :
    Option SafeInfo :=
  match probe with
  | Except.error _ => none
  | Except.ok info => if signerAddress ∈ info.owners then some info else none

/-- JavaScript truthiness of an optional string (`undefined` and the
empty string are falsy). -/
def jsTruthy (s : Option String) : Bool :=
  match s with
  | none => false
  | some str => str ≠ ""

/-- `(resp).hash || (resp).transactionHash || (resp).safeTxHash`
combined with the `if (txHash)` guard of lines 399-408: the first truthy
field, or `none` when all are falsy. -/
def extractTxHash (r : ExecResponse) : Option String :=
  if jsTruthy r.hash then r.hash
  else if jsTruthy r.transactionHash then r.transactionHash
  else if jsTruthy r.safeTxHash then r.safeTxHash
  else none

/-- Target contract of a redemption: the neg-risk adapter for
negative-risk markets, the CTF contract otherwise (lines 381-383, 451). -/
def targetOf (p : Position) : Nat :=
  if p.negativeRisk then negRiskAdapterAddress else ctfAddress

/-- `claimViaGnosisSafe` (lines 368-415): builds the calldata, creates,
signs and executes a Safe transaction, and reports success with whatever
identifier the execution response exposes; any throw inside the `try`
(including a calldata-encoding throw) is caught and reported as a failed
result. -/
def claimViaGnosisSafe (env : ChainEnv) (p : Position) :
    ClaimResult × List Effect :=
  match buildRedemptionCalldata p.conditionId p.outcomeIndex p.negativeRisk p.size with
  | none => ({ success := false, txHash := none, error := some "encoding error" }, [])
  | some calldata =>
    match env.execError with
    | some msg => ({ success := false, txHash := none, error := some msg }, [])
    | none =>
      ({ success := true, txHash := extractTxHash env.execResponse, error := none },
       [Effect.safeExecute (targetOf p) calldata])

/-- `claimViaPolymarketProxy` (lines 417-528): checks the signer's
gas-token balance first and fails without submitting when it is zero,
naming the address to fund; otherwise submits the redemption through the
proxy-wallet factory and interprets the receipt (null receipt and
status-0 receipt are failures). -/
def claimViaPolymarketProxy (env : ChainEnv) (p : Position) :
    ClaimResult × List Effect :=
  if env.eoaBalance = 0 then
    ({ success := false, txHash := none,
       error := some ("No MATIC for gas fees. Send MATIC to " ++ env.signerAddress) }, [])
  else
    match buildRedemptionCalldata p.conditionId p.outcomeIndex p.negativeRisk p.size with
    | none => ({ success := false, txHash := none, error := some "encoding error" }, [])
    | some calldata =>
      match env.proxyError with
      | some msg => ({ success := false, txHash := none, error := some msg }, [])
      | none =>
        match env.proxyReceipt with
        | none =>
          ({ success := false, txHash := none, error := some "Transaction receipt is null" },
           [Effect.proxySubmit (targetOf p) calldata])
        | some receipt =>
          if receipt.status = 0 then
            ({ success := false, txHash := some env.proxyTxHash,
               error := some "Transaction reverted" },
             [Effect.proxySubmit (targetOf p) calldata])
          else
            ({ success := true, txHash := some env.proxyTxHash, error := none },
             [Effect.proxySubmit (targetOf p) calldata])

/-- `claimPosition` (lines 530-549): in dry-run mode it returns the
synthetic success `{success: true, txHash: 'DRY_RUN'}` before reaching
either execution path; otherwise it routes on the resolved wallet mode. -/
def claimPosition (env : ChainEnv) (p : Position) (dryRun : Bool) :
    ClaimResult × List Effect :=
  if dryRun then
    ({ success := true, txHash := some "DRY_RUN", error := none }, [])
  else
    match env.safe with
    | some _ => claimViaGnosisSafe env p
    | none => claimViaPolymarketProxy env p

/-- Aggregate state of one claim batch: the success/failure counters of
`run`, the positions claim attempts were made for (in order), and the
on-chain writes they submitted. -/
structure BatchOutcome where
  successCount : Nat
  failCount : Nat
  attempts : List Position
  effects : List Effect
  deriving DecidableEq, Repr

/-- The claim loop of `run` (lines 576-592): one claim attempt per
position, in list order, incrementing exactly one of the two counters
per attempt and never aborting early. -/
def runClaims (claim : Position → ClaimResult × List Effect) :
    List Position → BatchOutcome
  | [] => { successCount := 0, failCount := 0, attempts := [], effects := [] }
  | p :: rest =>
    let r := claim p
    let b := runClaims claim rest
    { successCount := (if (r.1).success then 1 else 0) + b.successCount,
      failCount := (if (r.1).success then 0 else 1) + b.failCount,
      attempts := p :: b.attempts,
      effects := r.2 ++ b.effects }

/-- `positions.reduce((sum, pos) => sum + pos.size, 0)` (line 597),
also the accumulation of lines 566-569. -/
def totalValueOf (positions : List Position) : ℚ :=
  positions.foldl (fun s p => s + p.size) 0

/-- What one cycle reports: the batch outcome (absent when the cycle
returned early with no claimable positions) and, in dry-run mode, the
total face value. -/
structure CycleReport where
  batch : Option BatchOutcome
  totalValue : Option ℚ
  deriving DecidableEq, Repr

/-- The per-position claim of one cycle: the chain observations may
differ between attempts, so the environment is an oracle over positions. -/
def cycleClaim (envOf : Position → ChainEnv) (dryRun : Bool) (p : Position) :
    ClaimResult × List Effect :=
  claimPosition (envOf p) p dryRun

/-- `run` (lines 551-609): fetch and filter positions, return early when
none are claimable, otherwise attempt every claim and summarise; the
dry-run summary adds the total face value. -/
def runCycle (envOf : Position → ChainEnv) (dryRun : Bool)
    (resp : Except String (List Position)) : CycleReport :=
  let positions := fetchRedeemablePositions resp
  if positions.isEmpty then { batch := none, totalValue := none }
  else
    { batch := some (runClaims (cycleClaim envOf dryRun) positions),
      totalValue := if dryRun then some (totalValueOf positions) else none }

/-- `Math.floor(Math.random() * 3000)` (line 693), `r` being the
`Math.random()` draw. -/
def jitterOf (r : ℚ) : Int :=
  ⌊r * 3000⌋

/-- Wait computed by one loop iteration (lines 690-695):
`delay = max(nextPlanned - now, 0)` plus the jitter. -/
def loopWait (nextPlanned now : Int) (r : ℚ) : Int :=
  (if nextPlanned - now < 0 then 0 else nextPlanned - now) + jitterOf r

/-- The scheduler loop of `main` (lines 689-700), unrolled over the
sequence of observations the iterations make (`obs` pairs a `Date.now()`
reading with the `Math.random()` draw). Each entry of the trace is the
target timestamp the iteration waits for and the wait it computes; the
next target is always `nextPlanned + intervalMs`, independent of `now`. -/
def schedulerTrace (intervalMs : Int) : Int → List (Int × ℚ) → List (Int × Int)
  | _, [] => []
  | nextPlanned, (now, r) :: rest =>
    (nextPlanned, loopWait nextPlanned now r) ::
      schedulerTrace intervalMs (nextPlanned + intervalMs) rest

/-- A concrete claimable standard-market position used as a test vector. -/
def samplePosition (n : Nat) : Position :=
  { conditionId := n, size := 2, curPrice := 1, redeemable := true,
    outcomeIndex := 0, negativeRisk := false, title := "m", outcome := "Yes" }

/-- A chain environment on the multi-signature path whose execution
succeeds with a transaction hash. -/
def sampleEnvOk : ChainEnv :=
  { signerAddress := "0xOwner", eoaBalance := 5,
    safe := some { owners := ["0xOwner"], threshold := 1 },
    execError := none,
    execResponse := { hash := some "0xtx", transactionHash := none, safeTxHash := none },
    proxyError := none, proxyTxHash := "0xptx",
    proxyReceipt := some { status := 1, blockNumber := 10 } }

/-- As `sampleEnvOk` but the Safe execution throws. -/
def sampleEnvFail : ChainEnv :=
  { sampleEnvOk with execError := some "execution reverted" }

/-- As `sampleEnvOk` but the execution response exposes no identifier
field at all. -/
def sampleEnvNoHash : ChainEnv :=
  { sampleEnvOk with
    execResponse := { hash := none, transactionHash := none, safeTxHash := none } }

/-- An environment oracle under which exactly the position with
condition id 2 fails (its Safe execution throws). -/
def sampleEnvOf (p : Position) : ChainEnv :=
  if p.conditionId = 2 then sampleEnvFail else sampleEnvOk

/-- Three claimable positions; under `sampleEnvOf` the middle one fails. -/
def samplePositions : List Position :=
  [samplePosition 1, samplePosition 2, samplePosition 3]

/-- Proxy-path environment with an unfunded signer. -/
def sampleProxyEnvNoGas : ChainEnv :=
  { signerAddress := "0xS", eoaBalance := 0, safe := none,
    execError := none,
    execResponse := { hash := none, transactionHash := none, safeTxHash := none },
    proxyError := none, proxyTxHash := "0xptx", proxyReceipt := none }

section Lemmas

/-- The filter predicate, spelled as the spec's three-clause invariant. -/
theorem claimFilter_eq_true_iff (p : Position) :
    claimFilter p = true ↔ p.redeemable = true ∧ 0 < p.size ∧ p.curPrice = 1 := by
  unfold claimFilter
  by_cases h1 : p.redeemable <;>
    by_cases h2 : p.size ≤ 0 <;>
      by_cases h3 : p.curPrice = 1 <;>
        simp [h1, h2, h3] <;>
          first
          | exact h2
          | exact not_le.mp h2
          | intro h; exact absurd h (not_lt.mpr h2)
          | intro h; exact absurd h3 h

theorem runClaims_attempts (claim : Position → ClaimResult × List Effect)
    (l : List Position) : (runClaims claim l).attempts = l := by
  induction l with
  | nil => rfl
  | cons p rest ih => simp [runClaims, ih]

theorem runClaims_successCount (claim : Position → ClaimResult × List Effect)
    (l : List Position) :
    (runClaims claim l).successCount
      = (l.filter (fun p => (claim p).1.success)).length := by
  induction l with
  | nil => rfl
  | cons p rest ih =>
    by_cases h : (claim p).1.success <;> simp [runClaims, List.filter, h, ih] <;> omega

theorem runClaims_failCount (claim : Position → ClaimResult × List Effect)
    (l : List Position) :
    (runClaims claim l).failCount
      = (l.filter (fun p => !(claim p).1.success)).length := by
  induction l with
  | nil => rfl
  | cons p rest ih =>
    by_cases h : (claim p).1.success <;> simp [runClaims, List.filter, h, ih] <;> omega

theorem runClaims_counts (claim : Position → ClaimResult × List Effect)
    (l : List Position) :
    (runClaims claim l).successCount + (runClaims claim l).failCount = l.length := by
  induction l with
  | nil => rfl
  | cons p rest ih =>
    by_cases h : (claim p).1.success <;> simp [runClaims, h] <;> omega

theorem runClaims_effects_nil (claim : Position → ClaimResult × List Effect)
    (l : List Position) (h : ∀ p ∈ l, (claim p).2 = []) :
    (runClaims claim l).effects = [] := by
  induction l with
  | nil => rfl
  | cons p rest ih =>
    simp only [runClaims]
    rw [h p (List.mem_cons_self p rest), ih fun q hq => h q (List.mem_cons_of_mem p hq)]
    rfl

theorem totalValueOf_eq_sum (l : List Position) :
    totalValueOf l = (l.map Position.size).sum := by
  unfold totalValueOf
  have key : ∀ (l : List Position) (a : ℚ),
      l.foldl (fun s p => s + p.size) a = a + (l.map Position.size).sum := by
    intro l
    induction l with
    | nil => intro a; simp
    | cons p rest ih => intro a; simp [List.foldl, ih, add_assoc]
  simpa using key l 0

theorem parseUnits6_eq (s : ℚ) (amt : Nat) (h : s * 1000000 = (amt : ℚ)) :
    parseUnits6 s = some amt := by
  unfold parseUnits6
  rw [h]
  simp

theorem schedulerTrace_targets (intervalMs : Int) (t : Int) (obs : List (Int × ℚ)) :
    (schedulerTrace intervalMs t obs).map Prod.fst
      = (List.range obs.length).map (fun k : Nat => t + (k : Int) * intervalMs) := by
  induction obs generalizing t with
  | nil => rfl
  | cons o rest ih =>
    obtain ⟨now, r⟩ := o
    simp only [schedulerTrace, List.map_cons, List.length_cons, ih (t + intervalMs)]
    rw [List.range_succ_eq_map, List.map_cons, List.map_map]
    refine List.cons_eq_cons.mpr ⟨by simp, ?_⟩
    apply List.map_congr_left
    intro k _
    simp only [Function.comp_apply]
    push_cast
    ring

theorem jitterOf_lt (r : ℚ) (h1 : r < 1) : jitterOf r < 3000 := by
  unfold jitterOf
  have : r * 3000 < ((3000 : Int) : ℚ) := by push_cast; nlinarith
  exact Int.floor_lt.mpr this

end Lemmas

/-- C1: a fetched position is included in the filter's returned list iff
`redeemable == true` and `size > 0` and `curPrice == 1`; a position
failing any clause (in particular any `curPrice == 0` position,
redeemable or not) is excluded and is never passed to a claim attempt. -/
theorem c1_position_filter (ps : List Position) (p : Position) (hp : p ∈ ps) :
    (p ∈ fetchRedeemablePositions (Except.ok ps)
      ↔ p.redeemable = true ∧ 0 < p.size ∧ p.curPrice = 1)
  ∧ (¬(p.redeemable = true ∧ 0 < p.size ∧ p.curPrice = 1) →
      ∀ claim, p ∉ (runClaims claim (fetchRedeemablePositions (Except.ok ps))).attempts) := by
  constructor
  · rw [← claimFilter_eq_true_iff]
    simp [fetchRedeemablePositions, List.mem_filter, hp]
  · intro hnot claim
    rw [runClaims_attempts]
    intro hin
    exact hnot ((claimFilter_eq_true_iff p).mp (List.mem_filter.mp hin).2)

theorem c1_position_filter_witness :
    (samplePosition 1 ∈ fetchRedeemablePositions (Except.ok [samplePosition 1])
      ↔ (samplePosition 1).redeemable = true ∧ 0 < (samplePosition 1).size
          ∧ (samplePosition 1).curPrice = 1)
  ∧ (¬((samplePosition 1).redeemable = true ∧ 0 < (samplePosition 1).size
          ∧ (samplePosition 1).curPrice = 1) →
      ∀ claim, samplePosition 1
        ∉ (runClaims claim (fetchRedeemablePositions (Except.ok [samplePosition 1]))).attempts) :=
  c1_position_filter [samplePosition 1] (samplePosition 1) (List.mem_singleton.mpr rfl)

/-- C2: `buildRedemptionCalldata` is deterministic in its four inputs —
two calls with identical `conditionId`, `outcomeIndex`, `negativeRisk`
and `size` produce byte-identical calldata (purity is reflected by the
embedding: the function takes no state or network argument at all). -/
theorem c2_calldata_deterministic (cA cB oA oB : Nat) (nA nB : Bool) (sA sB : ℚ)
    (hc : cA = cB) (ho : oA = oB) (hn : nA = nB) (hs : sA = sB) :
    buildRedemptionCalldata cA oA nA sA = buildRedemptionCalldata cB oB nB sB := by
  rw [hc, ho, hn, hs]

theorem c2_calldata_deterministic_witness :
    buildRedemptionCalldata 5 0 false 2 = buildRedemptionCalldata 5 0 false 2 :=
  c2_calldata_deterministic 5 5 0 0 false false 2 2 rfl rfl rfl rfl

/-- C3: for negative-risk markets with outcome index 0 or 1, the encoded
`redeemPositions(bytes32,uint256[])` call carries the two-element amount
vector with `size · 10^6` in the slot equal to the outcome index and 0
in the other slot. -/
theorem c3_negrisk_encoding (c i : Nat) (s : ℚ) (amt : Nat)
    (hi : i = 0 ∨ i = 1) (hs : s * 1000000 = (amt : ℚ)) :
    buildRedemptionCalldata c i true s
      = some (encodeCall negRiskRedeemSelector
          ([c, 0x40, 2] ++ [if i = 0 then amt else 0, if i = 1 then amt else 0])) := by
  have hp := parseUnits6_eq s amt hs
  rcases hi with h | h <;> subst h <;> simp [buildRedemptionCalldata, hp]

theorem c3_negrisk_encoding_witness :
    buildRedemptionCalldata 7 1 true (3 / 2)
      = some (encodeCall negRiskRedeemSelector
          ([7, 0x40, 2] ++ [if 1 = 0 then 1500000 else 0, if 1 = 1 then 1500000 else 0])) :=
  c3_negrisk_encoding 7 1 (3 / 2) 1500000 (Or.inr rfl) (by norm_num)

/-- C4: for standard markets the encoded
`redeemPositions(address,bytes32,bytes32,uint256[])` call uses the USDC
collateral address, the all-zero parent collection id, and the singleton
index-set list `[1 <<< outcomeIndex]` — and `1 <<< outcomeIndex` is
exactly `2 ^ outcomeIndex`. -/
theorem c4_standard_encoding (c i : Nat) (s : ℚ) :
    buildRedemptionCalldata c i false s
      = some (encodeCall ctfRedeemSelector [usdcAddress, 0, c, 0x80, 1, 1 <<< i])
  ∧ 1 <<< i = 2 ^ i :=
  ⟨rfl, Nat.one_shiftLeft i⟩

/-- C5: a failed position fetch (unreachable upstream or malformed
response) yields the empty list instead of an exception, and the cycle
proceeds as a zero-positions-found cycle. -/
theorem c5_fetch_failure_soft (e : String) :
    fetchRedeemablePositions (Except.error e) = []
  ∧ ∀ (envOf : Position → ChainEnv) (dryRun : Bool),
      runCycle envOf dryRun (Except.error e) = { batch := none, totalValue := none } :=
  ⟨rfl, fun _ _ => rfl⟩

/-- C6: in a non-dry-run cycle a failed claim does not abort the batch —
every position is attempted, in order, `successCount + failCount` equals
the batch size, and when exactly one claim fails the summary reports one
failure and N−1 successes. -/
theorem c6_batch_isolation (envOf : Position → ChainEnv) (positions : List Position)
    (h : (positions.filter (fun p => !(cycleClaim envOf false p).1.success)).length = 1) :
    (runClaims (cycleClaim envOf false) positions).attempts = positions
  ∧ (runClaims (cycleClaim envOf false) positions).successCount
      + (runClaims (cycleClaim envOf false) positions).failCount = positions.length
  ∧ (runClaims (cycleClaim envOf false) positions).failCount = 1
  ∧ (runClaims (cycleClaim envOf false) positions).successCount = positions.length - 1 := by
  have ha := runClaims_attempts (cycleClaim envOf false) positions
  have hc := runClaims_counts (cycleClaim envOf false) positions
  have hf : (runClaims (cycleClaim envOf false) positions).failCount = 1 := by
    rw [runClaims_failCount]; exact h
  exact ⟨ha, hc, hf, by omega⟩

theorem c6_batch_isolation_witness :
    (runClaims (cycleClaim sampleEnvOf false) samplePositions).attempts = samplePositions
  ∧ (runClaims (cycleClaim sampleEnvOf false) samplePositions).successCount
      + (runClaims (cycleClaim sampleEnvOf false) samplePositions).failCount
      = samplePositions.length
  ∧ (runClaims (cycleClaim sampleEnvOf false) samplePositions).failCount = 1
  ∧ (runClaims (cycleClaim sampleEnvOf false) samplePositions).successCount
      = samplePositions.length - 1 :=
  c6_batch_isolation sampleEnvOf samplePositions (by decide)

/-- C7: in dry-run mode every claimable position gets the synthetic
success result without routing to either execution path (the cycle
submits no on-chain write at all), and the cycle reports the total face
value as the sum of the sizes of the claimable positions. -/
theorem c7_dry_run_frame (envOf : Position → ChainEnv) (ps : List Position)
    (h : fetchRedeemablePositions (Except.ok ps) ≠ []) :
    (∀ (env : ChainEnv) (p : Position),
        claimPosition env p true
          = ({ success := true, txHash := some "DRY_RUN", error := none }, []))
  ∧ ∃ b, runCycle envOf true (Except.ok ps)
        = { batch := some b,
            totalValue := some (totalValueOf (fetchRedeemablePositions (Except.ok ps))) }
      ∧ b.effects = []
      ∧ b.successCount = (fetchRedeemablePositions (Except.ok ps)).length
      ∧ b.failCount = 0
      ∧ totalValueOf (fetchRedeemablePositions (Except.ok ps))
          = ((fetchRedeemablePositions (Except.ok ps)).map Position.size).sum := by
  refine ⟨fun env p => rfl,
    runClaims (cycleClaim envOf true) (fetchRedeemablePositions (Except.ok ps)),
    ?_, ?_, ?_, ?_, totalValueOf_eq_sum _⟩
  · have hne : (fetchRedeemablePositions (Except.ok ps)).isEmpty = false := by
      cases hl : fetchRedeemablePositions (Except.ok ps) with
      | nil => exact absurd hl h
      | cons a t => rfl
    simp [runCycle, hne]
  · exact runClaims_effects_nil _ _ (fun p _ => rfl)
  · rw [runClaims_successCount]
    have heq : (fetchRedeemablePositions (Except.ok ps)).filter
        (fun p => (cycleClaim envOf true p).1.success)
        = fetchRedeemablePositions (Except.ok ps) :=
      List.filter_eq_self.mpr (fun a _ => rfl)
    rw [heq]
  · rw [runClaims_failCount]
    have heq : (fetchRedeemablePositions (Except.ok ps)).filter
        (fun p => !(cycleClaim envOf true p).1.success) = [] := by
      apply List.filter_eq_nil_iff.mpr
      intro a _
      have hs : (cycleClaim envOf true a).1.success = true := rfl
      simp [hs]
    rw [heq]
    rfl

theorem c7_dry_run_frame_witness :
    (∀ (env : ChainEnv) (p : Position),
        claimPosition env p true
          = ({ success := true, txHash := some "DRY_RUN", error := none }, []))
  ∧ ∃ b, runCycle sampleEnvOf true (Except.ok [samplePosition 1])
        = { batch := some b,
            totalValue := some (totalValueOf
              (fetchRedeemablePositions (Except.ok [samplePosition 1]))) }
      ∧ b.effects = []
      ∧ b.successCount = (fetchRedeemablePositions (Except.ok [samplePosition 1])).length
      ∧ b.failCount = 0
      ∧ totalValueOf (fetchRedeemablePositions (Except.ok [samplePosition 1]))
          = ((fetchRedeemablePositions (Except.ok [samplePosition 1])).map Position.size).sum :=
  c7_dry_run_frame sampleEnvOf [samplePosition 1] (by decide)

/-- C8: the scheduler targets cycle n+1 at the previous target plus the
interval — after n iterations the n-th target is `start + (n+1)·I`,
independent of the completion-time observations — and the jitter added
to each wait is strictly below 5 seconds. -/
theorem c8_scheduler_drift (intervalMs start : Int) (obs : List (Int × ℚ))
    (hr : ∀ o ∈ obs, 0 ≤ o.2 ∧ o.2 < 1) :
    ((schedulerTrace intervalMs (start + intervalMs) obs).map Prod.fst
      = (List.range obs.length).map (fun k : Nat => start + ((k : Int) + 1) * intervalMs))
  ∧ ∀ o ∈ obs, jitterOf o.2 < 5000 := by
  constructor
  · rw [schedulerTrace_targets]
    apply List.map_congr_left
    intro k _
    ring
  · intro o ho
    exact lt_trans (jitterOf_lt o.2 (hr o ho).2) (by norm_num)

theorem c8_scheduler_drift_witness :
    ((schedulerTrace 60000 (0 + 60000) (List.replicate 10 ((5000 : Int), (1 : ℚ) / 2))).map
        Prod.fst
      = (List.range (List.replicate 10 ((5000 : Int), (1 : ℚ) / 2)).length).map
          (fun k : Nat => 0 + ((k : Int) + 1) * 60000))
  ∧ ∀ o ∈ List.replicate 10 ((5000 : Int), (1 : ℚ) / 2), jitterOf o.2 < 5000 :=
  c8_scheduler_drift 60000 0 (List.replicate 10 (5000, 1 / 2)) (by
    intro o ho
    rw [List.eq_of_mem_replicate ho]
    norm_num)

/-- C9: when the Safe probe throws or the signer is not a listed owner,
the executor falls back to the proxy-factory path, and on that path a
zero gas balance makes the claim fail immediately with an error naming
the signer address to fund, submitting nothing. -/
theorem c9_proxy_fallback_no_gas (probe : Except String SafeInfo) (signer : String)
    (env : ChainEnv) (p : Position)
    (hprobe : (∃ e, probe = Except.error e)
      ∨ ∃ info, probe = Except.ok info ∧ signer ∉ info.owners)
    (hsafe : env.safe = resolveSafe probe signer)
    (hsigner : env.signerAddress = signer)
    (hbal : env.eoaBalance = 0) :
    env.safe = none
  ∧ claimPosition env p false
      = ({ success := false, txHash := none,
           error := some ("No MATIC for gas fees. Send MATIC to " ++ signer) }, []) := by
  have hnone : resolveSafe probe signer = none := by
    rcases hprobe with ⟨e, he⟩ | ⟨info, hok, hmem⟩
    · rw [he]; rfl
    · rw [hok]; simp [resolveSafe, hmem]
  have hs : env.safe = none := hsafe.trans hnone
  refine ⟨hs, ?_⟩
  simp [claimPosition, hs, claimViaPolymarketProxy, hbal, hsigner]

theorem c9_proxy_fallback_no_gas_witness :
    sampleProxyEnvNoGas.safe = none
  ∧ claimPosition sampleProxyEnvNoGas (samplePosition 1) false
      = ({ success := false, txHash := none,
           error := some ("No MATIC for gas fees. Send MATIC to " ++ "0xS") }, []) :=
  c9_proxy_fallback_no_gas (Except.error "not a safe") "0xS" sampleProxyEnvNoGas
    (samplePosition 1) (Or.inl ⟨"not a safe", rfl⟩) rfl rfl rfl

/-- C10: on the multi-signature path, when the execution response
exposes none of the identifier fields, the claim result still reports
success with the transaction identifier absent. -/
theorem c10_safe_success_without_hash (env : ChainEnv) (p : Position) (cd : List Nat)
    (hresp : env.execResponse
        = { hash := none, transactionHash := none, safeTxHash := none })
    (herr : env.execError = none)
    (hcd : buildRedemptionCalldata p.conditionId p.outcomeIndex p.negativeRisk p.size
        = some cd) :
    claimViaGnosisSafe env p
      = ({ success := true, txHash := none, error := none },
         [Effect.safeExecute (targetOf p) cd]) := by
  simp [claimViaGnosisSafe, hcd, herr, hresp, extractTxHash, jsTruthy]

theorem c10_safe_success_without_hash_witness :
    claimViaGnosisSafe sampleEnvNoHash (samplePosition 1)
      = ({ success := true, txHash := none, error := none },
         [Effect.safeExecute (targetOf (samplePosition 1))
            (encodeCall ctfRedeemSelector [usdcAddress, 0, 1, 0x80, 1, 1 <<< 0])]) :=
  c10_safe_success_without_hash sampleEnvNoHash (samplePosition 1)
    (encodeCall ctfRedeemSelector [usdcAddress, 0, 1, 0x80, 1, 1 <<< 0]) rfl rfl rfl

end SimpleClaimer
